import Mathlib

/-!
# Transaction query service (`src/Server.js`)

A shallow embedding of the request handlers of `Server.js` and the properties
of their results.

Modelling conventions.

* A JavaScript `Number` is a `JsNumber`: a finite value, `Infinity`, `-Infinity` or
  `NaN`. A finite value is the rational it denotes; the results of `+`, `-`, `*` and
  `/` are rounded to binary64 (`roundDouble`: round to nearest, ties to even, with
  overflow to an infinity). The sign of a zero is not represented.
* A stored price is a number, `null` or `undefined`; the operators convert it to a
  number (`toNumber`) as the language does.
* JavaScript strings are `String`; where the code inspects characters the model
  works on `List Char`.
* `await`ed store calls return `Except`: the `error` case is a rejected promise.
-/

set_option autoImplicit false

namespace Server

/-! ## JavaScript numbers -/

/-- A value of type `Number`. -/
inductive JsNumber where
  | fin (q : ℚ)
  | posInf
  | negInf
  | nan
  deriving DecidableEq

/-- The integer nearest to `q`, the even one of the two when `q` lies halfway. -/
def roundHalfEven (q : ℚ) : ℤ :=
  if q - (⌊q⌋ : ℚ) < 1 / 2 then ⌊q⌋
  else if 1 / 2 < q - (⌊q⌋ : ℚ) then ⌊q⌋ + 1
  else if ⌊q⌋ % 2 = 0 then ⌊q⌋
  else ⌊q⌋ + 1

/-- The binary64 value nearest to `q` (ties to even): 53 significant bits, the least
exponent of a unit in the last place `-1074`, and overflow to an infinity from
`2 ^ 1024` on. -/
def roundDouble (q : ℚ) : JsNumber :=
  if q = 0 then JsNumber.fin 0
  else
    let e : ℤ := max (Int.log 2 |q| - 52) (-1074)
    let v : ℚ := (roundHalfEven (q / (2 : ℚ) ^ e) : ℚ) * (2 : ℚ) ^ e
    if (2 : ℚ) ^ (1024 : ℕ) ≤ |v| then (if 0 < q then JsNumber.posInf else JsNumber.negInf)
    else JsNumber.fin v

/-- The operator `a + b` on numbers. A zero operand leaves the other operand as it
is; otherwise the exact sum is rounded. -/
def jsAdd : JsNumber → JsNumber → JsNumber
  | JsNumber.nan, _ => JsNumber.nan
  | _, JsNumber.nan => JsNumber.nan
  | JsNumber.posInf, JsNumber.negInf => JsNumber.nan
  | JsNumber.negInf, JsNumber.posInf => JsNumber.nan
  | JsNumber.posInf, _ => JsNumber.posInf
  | JsNumber.negInf, _ => JsNumber.negInf
  | JsNumber.fin _, JsNumber.posInf => JsNumber.posInf
  | JsNumber.fin _, JsNumber.negInf => JsNumber.negInf
  | JsNumber.fin a, JsNumber.fin b =>
    if b = 0 then JsNumber.fin a else if a = 0 then JsNumber.fin b else roundDouble (a + b)

/-- The operator `a - b` on numbers. -/
def jsSub : JsNumber → JsNumber → JsNumber
  | JsNumber.nan, _ => JsNumber.nan
  | _, JsNumber.nan => JsNumber.nan
  | JsNumber.posInf, JsNumber.posInf => JsNumber.nan
  | JsNumber.negInf, JsNumber.negInf => JsNumber.nan
  | JsNumber.posInf, _ => JsNumber.posInf
  | JsNumber.negInf, _ => JsNumber.negInf
  | JsNumber.fin _, JsNumber.posInf => JsNumber.negInf
  | JsNumber.fin _, JsNumber.negInf => JsNumber.posInf
  | JsNumber.fin a, JsNumber.fin b => roundDouble (a - b)

/-- The infinity that results from a nonzero finite `s` and an infinity operand in a
product or quotient: `positive` tells whether that operand is the positive infinity. -/
def signedInf (positive : Bool) (s : ℚ) : JsNumber :=
  if (0 < s) = (positive = true) then JsNumber.posInf else JsNumber.negInf

/-- The operator `a * b` on numbers. -/
def jsMul : JsNumber → JsNumber → JsNumber
  | JsNumber.nan, _ => JsNumber.nan
  | _, JsNumber.nan => JsNumber.nan
  | JsNumber.fin a, JsNumber.fin b => roundDouble (a * b)
  | JsNumber.fin a, JsNumber.posInf => if a = 0 then JsNumber.nan else signedInf true a
  | JsNumber.fin a, JsNumber.negInf => if a = 0 then JsNumber.nan else signedInf false a
  | JsNumber.posInf, JsNumber.fin b => if b = 0 then JsNumber.nan else signedInf true b
  | JsNumber.negInf, JsNumber.fin b => if b = 0 then JsNumber.nan else signedInf false b
  | JsNumber.posInf, JsNumber.posInf => JsNumber.posInf
  | JsNumber.negInf, JsNumber.negInf => JsNumber.posInf
  | JsNumber.posInf, JsNumber.negInf => JsNumber.negInf
  | JsNumber.negInf, JsNumber.posInf => JsNumber.negInf

/-- The operator `a / b` on numbers; the divisor zero is the positive zero. -/
def jsDiv : JsNumber → JsNumber → JsNumber
  | JsNumber.nan, _ => JsNumber.nan
  | _, JsNumber.nan => JsNumber.nan
  | JsNumber.fin a, JsNumber.fin b =>
    if b = 0 then (if a = 0 then JsNumber.nan else signedInf true a)
    else roundDouble (a / b)
  | JsNumber.fin _, JsNumber.posInf => JsNumber.fin 0
  | JsNumber.fin _, JsNumber.negInf => JsNumber.fin 0
  | JsNumber.posInf, JsNumber.fin b => if 0 ≤ b then JsNumber.posInf else JsNumber.negInf
  | JsNumber.negInf, JsNumber.fin b => if 0 ≤ b then JsNumber.negInf else JsNumber.posInf
  | JsNumber.posInf, JsNumber.posInf => JsNumber.nan
  | JsNumber.posInf, JsNumber.negInf => JsNumber.nan
  | JsNumber.negInf, JsNumber.posInf => JsNumber.nan
  | JsNumber.negInf, JsNumber.negInf => JsNumber.nan

/-- The function `Math.ceil`. -/
def mathCeil : JsNumber → JsNumber
  | JsNumber.fin q => JsNumber.fin (⌈q⌉ : ℤ)
  | JsNumber.posInf => JsNumber.posInf
  | JsNumber.negInf => JsNumber.negInf
  | JsNumber.nan => JsNumber.nan

/-- The relational operator `a >= b` on numbers: `false` as soon as one is `NaN`. -/
def jsGe : JsNumber → JsNumber → Bool
  | JsNumber.nan, _ => false
  | _, JsNumber.nan => false
  | JsNumber.posInf, _ => true
  | _, JsNumber.negInf => true
  | JsNumber.negInf, _ => false
  | JsNumber.fin _, JsNumber.posInf => false
  | JsNumber.fin x, JsNumber.fin y => decide (y ≤ x)

/-- The relational operator `a <= b` on numbers. -/
def jsLe (a b : JsNumber) : Bool :=
  jsGe b a

/-- The natural number that a number is, if it is one. -/
def JsNumber.toNat? : JsNumber → Option Nat
  | JsNumber.fin q => if ((⌊q⌋₊ : ℕ) : ℚ) = q then some ⌊q⌋₊ else none
  | _ => none

/-! ## Data model (`transactionSchema`, lines 28-36) -/

/-- A `Date` by its calendar fields. -/
structure SaleDate where
  year : Nat
  month : Nat
  day : Nat
  hours : Nat
  minutes : Nat
  seconds : Nat
  millis : Nat
  deriving DecidableEq, Repr

/-- The value held by the field `price: Number` of a document: a number, `null`, or
nothing at all (`undefined`). -/
inductive Price where
  | number (n : JsNumber)
  | null
  | undefined
  deriving DecidableEq

/-- The conversion to a number that `>=`, `<=` and `+` apply to a price: `null` becomes
`0` and `undefined` becomes `NaN`. -/
def toNumber : Price → JsNumber
  | Price.number n => n
  | Price.null => JsNumber.fin 0
  | Price.undefined => JsNumber.nan

/-- A document of the `Transaction` model; `category = none` is a missing category. -/
structure Transaction where
  id : String
  title : String
  description : String
  price : Price
  dateOfSale : SaleDate
  category : Option String
  sold : Bool
  deriving DecidableEq

/-- The schema types named in `transactionSchema`. -/
inductive SchemaType where
  | string
  | number
  | date
  | boolean
  deriving DecidableEq, Repr

/-- Lines 28-36: the paths of `transactionSchema` with their declared types. -/
def transactionSchema : List (String × SchemaType) :=
  [ ("id", SchemaType.string), ("title", SchemaType.string),
    ("description", SchemaType.string), ("price", SchemaType.number),
    ("dateOfSale", SchemaType.date), ("category", SchemaType.string),
    ("sold", SchemaType.boolean) ]

/-! ## `GET /api/statistics` (lines 88-97) -/

/-- Line 89: `transactions.reduce((acc, t) => acc + (t.sold ? t.price : 0), 0)`. -/
def totalSales (transactions : List Transaction) : JsNumber :=
  transactions.foldl
    (fun acc t => jsAdd acc (toNumber (if t.sold then t.price else Price.number (JsNumber.fin 0))))
    (JsNumber.fin 0)

/-- Line 90: `transactions.filter(t => t.sold).length`. -/
def totalSoldItems (transactions : List Transaction) : Nat :=
  (transactions.filter (fun t => t.sold)).length

/-- Line 91: `transactions.length - totalSoldItems` (a subtraction of numbers,
so it is taken in `ℤ`). -/
def totalNotSoldItems (transactions : List Transaction) : Int :=
  (transactions.length : Int) - (totalSoldItems transactions : Int)

/-- The body sent by `res.json` at lines 93-97. -/
structure Statistics where
  totalSales : JsNumber
  totalSoldItems : Nat
  totalNotSoldItems : Int
  deriving DecidableEq

/-- Lines 89-97 on the records returned by `Transaction.find`. -/
def statistics (transactions : List Transaction) : Statistics :=
  { totalSales := totalSales transactions
    totalSoldItems := totalSoldItems transactions
    totalNotSoldItems := totalNotSoldItems transactions }

/-! ## `GET /api/bar-chart` (lines 108-128) -/

/-- An element of the `ranges` array. -/
structure Range where
  range : String
  min : JsNumber
  max : JsNumber
  deriving DecidableEq

/-- Lines 108-119: the `ranges` array. -/
def ranges : List Range :=
  [ { range := "0-100", min := JsNumber.fin 0, max := JsNumber.fin 100 },
    { range := "101-200", min := JsNumber.fin 101, max := JsNumber.fin 200 },
    { range := "201-300", min := JsNumber.fin 201, max := JsNumber.fin 300 },
    { range := "301-400", min := JsNumber.fin 301, max := JsNumber.fin 400 },
    { range := "401-500", min := JsNumber.fin 401, max := JsNumber.fin 500 },
    { range := "501-600", min := JsNumber.fin 501, max := JsNumber.fin 600 },
    { range := "601-700", min := JsNumber.fin 601, max := JsNumber.fin 700 },
    { range := "701-800", min := JsNumber.fin 701, max := JsNumber.fin 800 },
    { range := "801-900", min := JsNumber.fin 801, max := JsNumber.fin 900 },
    { range := "901-above", min := JsNumber.fin 901, max := JsNumber.posInf } ]

/-- An element of the bar-chart response. -/
structure BarEntry where
  range : String
  count : Nat
  deriving DecidableEq, Repr

/-- Line 124: the predicate `t.price >= range.min && t.price <= range.max`. -/
def inRange (r : Range) (t : Transaction) : Bool :=
  jsGe (toNumber t.price) r.min && jsLe (toNumber t.price) r.max

/-- Lines 123-126: `ranges.map(range => ({ range: range.range, count }))`. -/
def barChartData (transactions : List Transaction) : List BarEntry :=
  ranges.map (fun r =>
    { range := r.range, count := (transactions.filter (inRange r)).length })

/-! ## `GET /api/pie-chart` (lines 140-145) -/

/-- The insertion-ordered elements of `new Set(xs)`: each value once, at its first
occurrence. -/
def setOf : List (Option String) → List (Option String)
  | [] => []
  | x :: xs => x :: (setOf xs).filter (fun y => decide (y ≠ x))

/-- An element of the pie-chart response. -/
structure PieEntry where
  category : Option String
  count : Nat
  deriving DecidableEq, Repr

/-- Line 141: `[...new Set(transactions.map(t => t.category))]`. -/
def categories (transactions : List Transaction) : List (Option String) :=
  setOf (transactions.map (fun t => t.category))

/-- Lines 142-145: one `{ category, count }` per element of `categories`. -/
def pieChartData (transactions : List Transaction) : List PieEntry :=
  (categories transactions).map (fun c =>
    { category := c, count := (transactions.filter (fun t => decide (t.category = c))).length })

/-! ## The month pattern (lines 56, 85, 106, 137) -/

/-- The month keywords of the date-string reader of `Date.parse`, in calendar order. -/
def monthKeywords : List (List Char) :=
  [ "jan".toList, "feb".toList, "mar".toList, "apr".toList, "may".toList, "jun".toList,
    "jul".toList, "aug".toList, "sep".toList, "oct".toList, "nov".toList, "dec".toList ]

/-- Splits `word ++ " 1, 2020"` into `word`; `none` when the text has another shape. -/
def stripDaySuffix (s : List Char) : Option (List Char) :=
  let suffix := " 1, 2020".toList
  if suffix.length ≤ s.length ∧ s.drop (s.length - suffix.length) = suffix then
    some (s.take (s.length - suffix.length))
  else
    none

/-- The value of `new Date(Date.parse(s))` for `s = word + " 1, 2020"`, by local calendar fields:
a word whose first three letters are a month keyword (letter case ignored) gives
midnight of day 1 of that month of 2020; every other word gives an invalid date
(`none`, time value `NaN`). Texts of another shape are not in the model's domain
and are mapped to `none` as well. -/
def dateParse (s : List Char) : Option SaleDate :=
  match stripDaySuffix s with
  | none => none
  | some word =>
    match monthKeywords.indexOf? ((word.take 3).map Char.toLower) with
    | none => none
    | some i =>
      some { year := 2020, month := i + 1, day := 1, hours := 0, minutes := 0,
             seconds := 0, millis := 0 }

/-- The method `Date.prototype.getMonth`: the zero-based month, `NaN` for an invalid date. -/
def getMonth (d : Option SaleDate) : Option Nat :=
  d.map (fun x => x.month - 1)

/-- The decimal digit character of `n % 10`. -/
def digit (n : Nat) : Char :=
  Char.ofNat (48 + n % 10)

/-- The decimal digits of a natural number, most significant first. -/
def decimal : Nat → Nat → List Char
  | 0, _ => []
  | fuel + 1, n => if n < 10 then [digit n] else decimal fuel (n / 10) ++ [digit n]

/-- The conversion `String(n)` of a number that is a natural number or `NaN`. -/
def jsString (n : Option Nat) : List Char :=
  match n with
  | some k => decimal (k + 1) k
  | none => "NaN".toList

/-- The method `String.prototype.padStart(targetLength, padString)` with a one-character pad. -/
def padStart (s : List Char) (targetLength : Nat) (pad : Char) : List Char :=
  List.replicate (targetLength - s.length) pad ++ s

/-- The query parameter `month` inside `month + " 1, 2020"`: a missing parameter is
`undefined`, which concatenates as the text `undefined`. -/
def monthText (month : Option String) : List Char :=
  match month with
  | some m => m.toList
  | none => "undefined".toList

/-- Line 56: the `$regex` of the listing query. -/
def transactionsMonthRegex (month : Option String) : List Char :=
  ['-'] ++ padStart (jsString ((getMonth (dateParse (monthText month ++ " 1, 2020".toList))).map (· + 1))) 2 '0' ++ ['-']

/-- Line 85: `monthRegex` of the statistics handler. -/
def statisticsMonthRegex (month : Option String) : List Char :=
  ['-'] ++ padStart (jsString ((getMonth (dateParse (monthText month ++ " 1, 2020".toList))).map (· + 1))) 2 '0' ++ ['-']

/-- Line 106: `monthRegex` of the bar-chart handler. -/
def barChartMonthRegex (month : Option String) : List Char :=
  ['-'] ++ padStart (jsString ((getMonth (dateParse (monthText month ++ " 1, 2020".toList))).map (· + 1))) 2 '0' ++ ['-']

/-- Line 137: `monthRegex` of the pie-chart handler. -/
def pieChartMonthRegex (month : Option String) : List Char :=
  ['-'] ++ padStart (jsString ((getMonth (dateParse (monthText month ++ " 1, 2020".toList))).map (· + 1))) 2 '0' ++ ['-']

/-- The twelve English month names with their calendar numbers. -/
def englishMonths : List (String × Nat) :=
  [ ("January", 1), ("February", 2), ("March", 3), ("April", 4), ("May", 5), ("June", 6),
    ("July", 7), ("August", 8), ("September", 9), ("October", 10), ("November", 11),
    ("December", 12) ]

/-- The two-digit, zero-padded decimal form of a number below 100. -/
def twoDigits (n : Nat) : List Char :=
  [digit (n / 10), digit n]

/-- A filter object with one condition `{ path: { $regex: pattern } }`. -/
structure RegexFilter where
  path : String
  regex : List Char
  deriving DecidableEq

/-- Line 88: the filter `{ dateOfSale: { $regex: monthRegex } }` given to
`Transaction.find`. -/
def statisticsFilter (month : Option String) : RegexFilter :=
  { path := "dateOfSale", regex := statisticsMonthRegex month }

/-! ## The stored date text and the pattern test -/

/-- Modelled from the spec: the text form `YYYY-MM-DDTHH:mm:ss.sssZ` in which the record
store holds a sale date, and against which the month filter is matched. `Server.js`
declares `dateOfSale: Date` and hands the pattern to the store; the text form itself is
the store's and is not part of `Server.js`. -/
def toISOString (d : SaleDate) : List Char :=
  [digit (d.year / 1000), digit (d.year / 100), digit (d.year / 10), digit d.year, '-']
    ++ twoDigits d.month ++ ['-'] ++ twoDigits d.day ++ ['T'] ++ twoDigits d.hours ++ [':']
    ++ twoDigits d.minutes ++ [':'] ++ twoDigits d.seconds
    ++ ['.', digit (d.millis / 100), digit (d.millis / 10), digit d.millis, 'Z']

/-- Modelled from the spec: the dates that have the text form `YYYY-MM-DDTHH:mm:ss.sssZ`:
a four-digit year, a month, a day and a time of day. -/
def SaleDate.WellFormed (d : SaleDate) : Prop :=
  d.year < 10000 ∧ 1 ≤ d.month ∧ d.month ≤ 12 ∧ 1 ≤ d.day ∧ d.day ≤ 31 ∧
    d.hours < 24 ∧ d.minutes < 60 ∧ d.seconds < 60 ∧ d.millis < 1000

instance (d : SaleDate) : Decidable d.WellFormed := by
  unfold SaleDate.WellFormed
  infer_instance

/-- Modelled from the spec: the substring match of the month filter, "a dash-padded
two-digit month appearing anywhere in the date's text form". The match is done by the
record store, not by `Server.js`; for a pattern of literal characters it is whether the
pattern occurs as a contiguous piece of the text. -/
def regexTest (pattern : List Char) : List Char → Bool
  | [] => pattern.isEmpty
  | c :: cs => pattern.isPrefixOf (c :: cs) || regexTest pattern cs

/-! ## `GET /api/transactions` (lines 53-80) -/

/-- A numeric query parameter by the two numbers the handler reads from its text:
`asNumber` is the value it converts to inside an arithmetic expression
(`(page - 1) * perPage`, `totalTransactions / perPage`), `asInt` is the value of
`parseInt` on it (an integer or `NaN`). The two agree on a plain decimal numeral and
differ on a text such as `1e1` (10 and 1). -/
structure NumParam where
  asNumber : JsNumber
  asInt : JsNumber
  deriving DecidableEq

/-- The query parameters of a request; `none` is a parameter that is absent. `page` is
given by the number its text converts to in `page - 1`. -/
structure ReqQuery where
  search : Option String
  page : Option JsNumber
  perPage : Option NumParam
  month : Option String

/-- The filter object `query` of lines 55-65: the `$regex` on `dateOfSale` and, when a
search text is given, the source of the three `new RegExp(search, 'i')` clauses of `$or`. -/
structure Query where
  dateOfSale : List Char
  or : Option (List Char)
  deriving DecidableEq

/-- The record store as seen by the handler: `find` gives the documents matching a
filter, in store order, `countDocuments` their number (a count, so a natural number),
and either call may reject. `irregular` is the store's answer to a `skip` or `limit`
that is not a natural number (negative, fractional, infinite, `NaN`), which is left
open. -/
structure Store where
  find : Query → Except String (List Transaction)
  countDocuments : Query → Except String Nat
  irregular : JsNumber → JsNumber → List Transaction → Except String (List Transaction)

/-- The reverse solidus, which escapes the next pattern character. -/
def reverseSolidus : Char :=
  Char.ofNat 92

/-- Scans a pattern for the syntax errors of grouping: an escape with nothing after
it, a character class or a group left open, a closing parenthesis without an opening
one. `depth` counts the open groups, `inClass` tells whether a class is open. -/
def patternScan : Nat → Bool → List Char → Bool
  | depth, inClass, [] => inClass || depth != 0
  | depth, inClass, c :: cs =>
    if c = reverseSolidus then
      match cs with
      | [] => true
      | _ :: rest => patternScan depth inClass rest
    else if inClass then patternScan depth (c != ']') cs
    else if c = '[' then patternScan depth true cs
    else if c = '(' then patternScan (depth + 1) false cs
    else if c = ')' then
      match depth with
      | 0 => true
      | d + 1 => patternScan d false cs
    else patternScan depth false cs

/-- Whether `new RegExp(source, 'i')` throws a `SyntaxError`: for one of the grouping
errors found by `patternScan`, or for one of the other errors of the pattern grammar
(a quantifier with nothing to repeat, a class range out of order, ...), which are not
modelled and are reported by the parameter `otherErrors`. -/
def regExpThrows (otherErrors : String → Bool) (source : String) : Bool :=
  patternScan 0 false source.toList || otherErrors source

/-- The chain `.skip(skip).limit(limit)` on the matching documents, with the cursor
rules of MongoDB, the store behind `mongoose`, for natural numbers: the first `skip`
documents are left out; a `limit` of `0` is equivalent to setting no limit, a positive
one truncates. -/
def skipLimit (skip limit : Nat) (docs : List Transaction) : List Transaction :=
  if limit = 0 then docs.drop skip else (docs.drop skip).take limit

/-- The documents that `find(query).skip(skip).limit(limit)` resolves to, given the
matching documents. -/
def cursor (store : Store) (skip limit : JsNumber) (docs : List Transaction) :
    Except String (List Transaction) :=
  match skip.toNat?, limit.toNat? with
  | some s, some l => Except.ok (skipLimit s l docs)
  | _, _ => store.irregular skip limit docs

/-- The body sent by `res.json` at lines 72-76. -/
structure Listing where
  transactions : List Transaction
  totalTransactions : Nat
  totalPages : JsNumber
  deriving DecidableEq

/-- How a handler run ends: a JSON body, a status 500 with a text, or an error that
leaves the handler uncaught, in which case the handler sends no response at all. -/
inductive Outcome (α : Type) where
  | json (body : α)
  | status500 (message : String)
  | uncaught
  deriving DecidableEq

/-- Lines 55-65: the filter object, once the `$or` clauses have been built. -/
def listingQuery (req : ReqQuery) : Query :=
  let search := req.search.getD ""
  { dateOfSale := transactionsMonthRegex req.month
    or := if search ≠ "" then some search.toList else none }

/-- The default `perPage = 10` of line 54. -/
def defaultPerPage : NumParam :=
  { asNumber := JsNumber.fin 10, asInt := JsNumber.fin 10 }

/-- Lines 53-80. The `$or` clauses are built before the `try` block (lines 59-65);
the two store calls are inside it (lines 67-79). -/
def transactionsHandler (otherErrors : String → Bool) (store : Store) (req : ReqQuery) :
    Outcome Listing :=
  let search := req.search.getD ""
  let page := req.page.getD (JsNumber.fin 1)
  let perPage := req.perPage.getD defaultPerPage
  if search ≠ "" ∧ regExpThrows otherErrors search = true then
    Outcome.uncaught
  else
    let query := listingQuery req
    match store.find query with
    | Except.error _ => Outcome.status500 "Error fetching transactions"
    | Except.ok docs =>
      match cursor store (jsMul (jsSub page (JsNumber.fin 1)) perPage.asNumber)
          perPage.asInt docs with
      | Except.error _ => Outcome.status500 "Error fetching transactions"
      | Except.ok transactions =>
        match store.countDocuments query with
        | Except.error _ => Outcome.status500 "Error fetching transactions"
        | Except.ok totalTransactions =>
          Outcome.json
            { transactions := transactions
              totalTransactions := totalTransactions
              totalPages :=
                mathCeil (jsDiv (JsNumber.fin (totalTransactions : ℚ)) perPage.asNumber) }

/-! ## Sample data -/

/-- A store holding `docs`, all of which match every filter, and rejecting a `skip` or
`limit` that is not a natural number. -/
def storeOf (docs : List Transaction) : Store :=
  { find := fun _ => Except.ok docs
    countDocuments := fun _ => Except.ok docs.length
    irregular := fun _ _ _ => Except.error "bad cursor option" }

/-- No pattern errors besides the grouping errors; used with requests that carry no
search text, where no pattern is built. -/
def noOtherErrors : String → Bool :=
  fun _ => false

/-- The date 15 March 2020, 10:30:00.000. -/
def sampleDate : SaleDate :=
  { year := 2020, month := 3, day := 15, hours := 10, minutes := 30, seconds := 0, millis := 0 }

/-- A record sold in March 2020 with the given price, category and sold flag. -/
def sample (price : ℚ) (category : String) (sold : Bool) : Transaction :=
  { id := "1", title := "item", description := "an item",
    price := Price.number (JsNumber.fin price),
    dateOfSale := sampleDate, category := some category, sold := sold }

/-- A record like `sample` whose price is `null`. -/
def sampleNullPrice : Transaction :=
  { id := "2", title := "item", description := "an item", price := Price.null,
    dateOfSale := sampleDate, category := some "a", sold := true }

/-- Three matching records priced 50, 150 and 950. -/
def sampleDocs : List Transaction :=
  [sample 50 "a" true, sample 150 "b" false, sample 950 "c" true]

/-- The query parameter whose text is the decimal numeral of `n`. -/
def numeral (n : Nat) : NumParam :=
  { asNumber := JsNumber.fin (n : ℚ), asInt := JsNumber.fin (n : ℚ) }

/-- A request for page 2 of the March listing with two records per page. -/
def sampleReq : ReqQuery :=
  { search := none, page := some (JsNumber.fin 2), perPage := some (numeral 2),
    month := some "March" }

/-- A request for page 1 of the March listing with `perPage=0`. -/
def zeroPerPageReq : ReqQuery :=
  { search := none, page := some (JsNumber.fin 1), perPage := some (numeral 0),
    month := some "March" }

/-! ## The bucket rule in words -/

/-- The wording of the bucket rule: the price is a number within the inclusive bounds
`lo` and `hi`. -/
def priceWithin (lo hi : ℚ) (t : Transaction) : Bool :=
  match t.price with
  | Price.number (JsNumber.fin p) => decide (lo ≤ p ∧ p ≤ hi)
  | _ => false

/-- The bucket rule as the code applies it: the price read as a number (`null` reads as
`0`) is within the inclusive bounds `lo` and `hi`. -/
def readsWithin (lo hi : ℚ) (t : Transaction) : Bool :=
  match toNumber t.price with
  | JsNumber.fin p => decide (lo ≤ p ∧ p ≤ hi)
  | _ => false

/-- The rule of the last bucket as the code applies it: the price read as a number is
`lo` or more, `Infinity` included. -/
def readsAtLeast (lo : ℚ) (t : Transaction) : Bool :=
  match toNumber t.price with
  | JsNumber.fin p => decide (lo ≤ p)
  | JsNumber.posInf => true
  | _ => false

/-! ## Auxiliary lemmas -/

theorem mem_setOf (l : List (Option String)) (y : Option String) : y ∈ setOf l ↔ y ∈ l := by
  induction l with
  | nil => simp [setOf]
  | cons x xs ih =>
    by_cases h : y = x
    · simp [setOf, h]
    · simp [setOf, ih, h]

theorem nodup_setOf (l : List (Option String)) : (setOf l).Nodup := by
  induction l with
  | nil => simp [setOf]
  | cons x xs ih =>
    simp only [setOf, List.nodup_cons]
    exact ⟨by simp [List.mem_filter], ih.filter _⟩

theorem sum_indicator (keys : List (Option String)) (hnd : keys.Nodup) (c : Option String)
    (hc : c ∈ keys) : (keys.map (fun k => if c = k then 1 else 0)).sum = 1 := by
  induction keys with
  | nil => simp at hc
  | cons k ks ih =>
    rw [List.nodup_cons] at hnd
    by_cases h : c = k
    · subst h
      have hz : (ks.map (fun k => if c = k then 1 else 0)).sum = 0 := by
        apply List.sum_eq_zero
        intro x hx
        obtain ⟨k, hk, rfl⟩ := List.mem_map.1 hx
        have : c ≠ k := fun e => hnd.1 (e ▸ hk)
        simp [this]
      simp [hz]
    · have hc2 : c ∈ ks := by
        rcases List.mem_cons.1 hc with h1 | h1
        · exact absurd h1 h
        · exact h1
      simp [h, ih hnd.2 hc2]

theorem sum_filter_length (keys : List (Option String)) (hnd : keys.Nodup)
    (ts : List Transaction) (h : ∀ t ∈ ts, t.category ∈ keys) :
    (keys.map (fun k => (ts.filter (fun t => decide (t.category = k))).length)).sum
      = ts.length := by
  induction ts with
  | nil => simp
  | cons t ts ih =>
    have hstep : ∀ k, ((t :: ts).filter (fun t => decide (t.category = k))).length
        = (ts.filter (fun t => decide (t.category = k))).length
          + (if t.category = k then 1 else 0) := by
      intro k
      by_cases hk : t.category = k <;> simp [List.filter_cons, hk]
    simp only [hstep, List.sum_map_add]
    rw [ih (fun x hx => h x (List.mem_cons_of_mem _ hx)),
      sum_indicator keys hnd t.category (h t (List.mem_cons_self _ _)), List.length_cons]

theorem filter_eq_length_one (keys : List (Option String)) (hnd : keys.Nodup)
    (c : Option String) (hc : c ∈ keys) :
    (keys.filter (fun k => decide (k = c))).length = 1 := by
  induction keys with
  | nil => simp at hc
  | cons k ks ih =>
    rw [List.nodup_cons] at hnd
    by_cases h : k = c
    · subst h
      have hz : ks.filter (fun x => decide (x = k)) = [] := by
        rw [List.filter_eq_nil_iff]
        intro x hx
        have : x ≠ k := fun e => hnd.1 (e ▸ hx)
        simp [this]
      simp [List.filter_cons, hz]
    · have hc2 : c ∈ ks := by
        rcases List.mem_cons.1 hc with h1 | h1
        · exact absurd h1.symm h
        · exact h1
      simp [List.filter_cons, h, ih hnd.2 hc2]


theorem roundHalfEven_intCast (z : ℤ) : roundHalfEven (z : ℚ) = z := by
  simp [roundHalfEven]

theorem roundHalfEven_le_ceil (q : ℚ) : roundHalfEven q ≤ ⌈q⌉ := by
  have hf : ⌊q⌋ ≤ ⌈q⌉ := Int.floor_le_ceil q
  unfold roundHalfEven
  by_cases h1 : q - (⌊q⌋ : ℚ) < 1 / 2
  · simp only [h1, if_true]; exact hf
  · have hne : (⌊q⌋ : ℚ) < q := by
      have : (1:ℚ) / 2 ≤ q - ⌊q⌋ := not_lt.1 h1
      linarith
    have hc : ⌊q⌋ + 1 ≤ ⌈q⌉ := by
      have : ⌊q⌋ < ⌈q⌉ := by
        rw [Int.lt_ceil]
        exact hne
      omega
    simp only [h1, if_false]
    split_ifs
    · exact hc
    · exact hf
    · exact hc

theorem lt_roundHalfEven (q : ℚ) (n : ℤ) (h : (n : ℚ) + 1 / 2 < q) : n < roundHalfEven q := by
  have hfl : n ≤ ⌊q⌋ := by
    rw [Int.le_floor]
    linarith
  unfold roundHalfEven
  by_cases h1 : q - (⌊q⌋ : ℚ) < 1 / 2
  · simp only [h1, if_true]
    by_contra hcon
    have : ⌊q⌋ = n := by omega
    rw [this] at h1
    linarith
  · simp only [h1, if_false]
    split_ifs
    · omega
    · by_contra hcon
      have hfn : ⌊q⌋ = n := by omega
      have h2 : ¬ (1:ℚ) / 2 < q - (⌊q⌋ : ℚ) := by assumption
      rw [hfn] at h2
      exact h2 (by linarith)
    · omega

theorem roundDouble_zero : roundDouble 0 = JsNumber.fin 0 := by
  simp [roundDouble]

theorem roundDouble_intCast (z : ℤ) (hz : |z| < 2 ^ 53) : roundDouble (z : ℚ) = JsNumber.fin (z : ℚ) := by
  by_cases h0 : z = 0
  · subst h0
    simp [roundDouble]
  have hq0 : (z : ℚ) ≠ 0 := by exact_mod_cast h0
  have habs : (0 : ℚ) < |(z : ℚ)| := abs_pos.2 hq0
  have hlt : |(z : ℚ)| < ((2 : ℕ) : ℚ) ^ (53 : ℤ) := by
    have : ((|z| : ℤ) : ℚ) < ((2 ^ 53 : ℤ) : ℚ) := by exact_mod_cast hz
    rw [Int.cast_abs] at this
    norm_num at this ⊢
    exact this
  have hlog : Int.log 2 |(z : ℚ)| < 53 := (Int.lt_zpow_iff_log_lt (by norm_num) habs).1 hlt
  obtain ⟨k, hk⟩ : ∃ k : ℕ, max (Int.log 2 |(z : ℚ)| - 52) (-1074) = -(k : ℤ) := by
    refine ⟨(-(max (Int.log 2 |(z : ℚ)| - 52) (-1074))).toNat, ?_⟩
    have : max (Int.log 2 |(z : ℚ)| - 52) (-1074) ≤ 0 := max_le (by omega) (by norm_num)
    omega
  have hpow : (2 : ℚ) ^ (-(k : ℤ)) = ((2 : ℚ) ^ k)⁻¹ := by
    rw [zpow_neg, zpow_natCast]
  have hpos : (0 : ℚ) < (2 : ℚ) ^ k := by positivity
  have hdiv : (z : ℚ) / ((2 : ℚ) ^ k)⁻¹ = ((z * 2 ^ k : ℤ) : ℚ) := by
    push_cast
    field_simp
  have hv : ((z * 2 ^ k : ℤ) : ℚ) * ((2 : ℚ) ^ k)⁻¹ = (z : ℚ) := by
    push_cast
    field_simp
  have hsmall : ¬ (2 : ℚ) ^ (1024 : ℕ) ≤ |(z : ℚ)| := by
    have : |(z : ℚ)| < (2 : ℚ) ^ (53 : ℕ) := by
      have : ((|z| : ℤ) : ℚ) < ((2 ^ 53 : ℤ) : ℚ) := by exact_mod_cast hz
      rw [Int.cast_abs] at this
      norm_num at this ⊢
      exact this
    have h2 : (2 : ℚ) ^ (53 : ℕ) ≤ (2 : ℚ) ^ (1024 : ℕ) :=
      pow_le_pow_right₀ (by norm_num) (by norm_num)
    linarith
  simp only [roundDouble, hq0, if_false, hk, hpow, hdiv, roundHalfEven_intCast, hv, hsmall]

theorem mathCeil_jsDiv_nat (T pp : ℕ) (hpp : 0 < pp) (hppB : pp < 2 ^ 53) (hT : T < 2 ^ 53) :
    mathCeil (jsDiv (JsNumber.fin (T : ℚ)) (JsNumber.fin (pp : ℚ)))
      = JsNumber.fin ((⌈(T : ℚ) / (pp : ℚ)⌉ : ℤ) : ℚ) := by
  have hppQ : (0 : ℚ) < (pp : ℚ) := by exact_mod_cast hpp
  have hppne : (pp : ℚ) ≠ 0 := ne_of_gt hppQ
  rcases Nat.eq_zero_or_pos T with h0 | hTpos
  · subst h0
    simp [jsDiv, hppne, roundDouble, mathCeil]
  have hTQ : (1 : ℚ) ≤ (T : ℚ) := by exact_mod_cast hTpos
  have hj : jsDiv (JsNumber.fin (T : ℚ)) (JsNumber.fin (pp : ℚ))
      = roundDouble ((T : ℚ) / (pp : ℚ)) := by
    simp only [jsDiv, hppne, if_false]
  rw [hj]
  obtain ⟨x, hx⟩ : ∃ x : ℚ, x = (T : ℚ) / (pp : ℚ) := ⟨_, rfl⟩
  rw [← hx]
  have hxpos : 0 < x := by
    rw [hx]
    exact div_pos (by linarith) hppQ
  have hxne : x ≠ 0 := ne_of_gt hxpos
  have hxabs : |x| = x := abs_of_pos hxpos
  have hppB' : (pp : ℚ) < 2 ^ (53 : ℕ) := by exact_mod_cast hppB
  have hTB : (T : ℚ) < 2 ^ (53 : ℕ) := by exact_mod_cast hT
  have hpp1 : (1 : ℚ) ≤ (pp : ℚ) := by exact_mod_cast hpp
  have hxT : x ≤ (T : ℚ) := by
    rw [hx, div_le_iff₀ hppQ]
    nlinarith
  have hxmul : x * (pp : ℚ) = (T : ℚ) := by
    rw [hx]; field_simp
  -- the binade of `x`
  have hb : 1 < (2 : ℕ) := by norm_num
  have hL1 : (2 : ℚ) ^ Int.log 2 x ≤ x := by
    have := Int.zpow_log_le_self hb hxpos
    simpa using this
  have hLhi : Int.log 2 x < 53 := by
    apply (Int.lt_zpow_iff_log_lt hb hxpos).1
    have : x < (2 : ℚ) ^ (53 : ℕ) := lt_of_le_of_lt hxT hTB
    exact_mod_cast this
  have hLlo : -53 ≤ Int.log 2 x := by
    apply (Int.zpow_le_iff_le_log hb hxpos).1
    have h1 : ((2 : ℚ) ^ (53 : ℕ))⁻¹ ≤ x := by
      rw [hx, inv_eq_one_div, div_le_div_iff₀ (by positivity) hppQ]
      nlinarith
    have h2 : (((2 : ℕ) : ℚ)) ^ (-53 : ℤ) = ((2 : ℚ) ^ (53 : ℕ))⁻¹ := by
      rw [zpow_neg]
      norm_num
    rw [h2]
    exact h1
  have he : max (Int.log 2 x - 52) (-1074) = Int.log 2 x - 52 := max_eq_left (by omega)
  obtain ⟨k, hk⟩ : ∃ k : ℕ, Int.log 2 x - 52 = -(k : ℤ) :=
    ⟨(52 - Int.log 2 x).toNat, by omega⟩
  have hLk : Int.log 2 x = 52 - (k : ℤ) := by omega
  have hspos : (0 : ℚ) < (2 : ℚ) ^ k := by positivity
  have hpow : (2 : ℚ) ^ (-(k : ℤ)) = ((2 : ℚ) ^ k)⁻¹ := by
    rw [zpow_neg, zpow_natCast]
  have hdiv : x / ((2 : ℚ) ^ k)⁻¹ = x * (2 : ℚ) ^ k := by
    rw [div_inv_eq_mul]
  -- `pp < 2 * s`
  have hpps : (pp : ℚ) < 2 * (2 : ℚ) ^ k := by
    have h3 : (2 : ℚ) ^ Int.log 2 x * (2 : ℚ) ^ k = (2 : ℚ) ^ (52 : ℕ) := by
      rw [hLk, zpow_sub₀ (by norm_num : (2 : ℚ) ≠ 0), zpow_natCast]
      field_simp
      norm_num
    have h4 : (2 : ℚ) ^ (52 : ℕ) ≤ x * (2 : ℚ) ^ k := by
      rw [← h3]
      exact mul_le_mul_of_nonneg_right hL1 hspos.le
    have h5 : (2 : ℚ) ^ (52 : ℕ) * (pp : ℚ) ≤ (T : ℚ) * (2 : ℚ) ^ k := by
      have := mul_le_mul_of_nonneg_right h4 hppQ.le
      calc (2 : ℚ) ^ (52 : ℕ) * (pp : ℚ) ≤ x * (2 : ℚ) ^ k * (pp : ℚ) := this
        _ = (x * (pp : ℚ)) * (2 : ℚ) ^ k := by ring
        _ = (T : ℚ) * (2 : ℚ) ^ k := by rw [hxmul]
    have h6 : (T : ℚ) * (2 : ℚ) ^ k < (2 : ℚ) ^ (53 : ℕ) * (2 : ℚ) ^ k :=
      mul_lt_mul_of_pos_right hTB hspos
    have h7 : (2 : ℚ) ^ (53 : ℕ) = 2 * (2 : ℚ) ^ (52 : ℕ) := by norm_num
    have h8 : (2 : ℚ) ^ (52 : ℕ) * (pp : ℚ) < (2 : ℚ) ^ (52 : ℕ) * (2 * (2 : ℚ) ^ k) := by
      calc (2 : ℚ) ^ (52 : ℕ) * (pp : ℚ) ≤ (T : ℚ) * (2 : ℚ) ^ k := h5
        _ < (2 : ℚ) ^ (53 : ℕ) * (2 : ℚ) ^ k := h6
        _ = (2 : ℚ) ^ (52 : ℕ) * (2 * (2 : ℚ) ^ k) := by rw [h7]; ring
    exact lt_of_mul_lt_mul_left h8 (by positivity)
  -- the ceiling `c` of `x`
  have hc1 : x ≤ (⌈x⌉ : ℚ) := Int.le_ceil x
  have hc2 : (⌈x⌉ : ℚ) - 1 < x := by
    have := Int.ceil_lt_add_one x
    linarith
  have hcT : ⌈x⌉ ≤ (T : ℤ) := by
    rw [Int.ceil_le]
    exact_mod_cast hxT
  have hcpos : 1 ≤ ⌈x⌉ := by
    have : 0 < ⌈x⌉ := Int.ceil_pos.2 hxpos
    omega
  -- `x - (c - 1) ≥ 1 / pp`
  have hgap : ((⌈x⌉ : ℚ) - 1) * (pp : ℚ) + 1 ≤ (T : ℚ) := by
    have h9 : ((⌈x⌉ : ℚ) - 1) * (pp : ℚ) < (T : ℚ) := by
      rw [← hxmul]
      exact mul_lt_mul_of_pos_right hc2 hppQ
    have h10 : ((⌈x⌉ - 1) * (pp : ℤ) : ℤ) < (T : ℤ) := by exact_mod_cast h9
    have h11 : (⌈x⌉ - 1) * (pp : ℤ) + 1 ≤ (T : ℤ) := by omega
    exact_mod_cast h11
  have hlow : (((⌈x⌉ - 1) * 2 ^ k : ℤ) : ℚ) + 1 / 2 < x * (2 : ℚ) ^ k := by
    push_cast
    have h12 : ((⌈x⌉ : ℚ) - 1) + 1 / (pp : ℚ) ≤ x := by
      have h14 : (((⌈x⌉ : ℚ) - 1) + 1 / (pp : ℚ)) * (pp : ℚ) = ((⌈x⌉ : ℚ) - 1) * (pp : ℚ) + 1 := by
        field_simp
      have h15 : (((⌈x⌉ : ℚ) - 1) + 1 / (pp : ℚ)) * (pp : ℚ) ≤ x * (pp : ℚ) := by
        rw [h14, hxmul]
        exact hgap
      exact le_of_mul_le_mul_right h15 hppQ
    have h13 : (1 : ℚ) / 2 < 1 / (pp : ℚ) * (2 : ℚ) ^ k := by
      rw [one_div_mul_eq_div, lt_div_iff₀ hppQ]
      linarith
    nlinarith
  have hm_lo : (⌈x⌉ - 1) * 2 ^ k < roundHalfEven (x * (2 : ℚ) ^ k) :=
    lt_roundHalfEven _ _ hlow
  have hm_hi : roundHalfEven (x * (2 : ℚ) ^ k) ≤ ⌈x⌉ * 2 ^ k := by
    refine le_trans (roundHalfEven_le_ceil _) ?_
    rw [Int.ceil_le]
    push_cast
    exact mul_le_mul_of_nonneg_right hc1 hspos.le
  have hm_loQ : ((⌈x⌉ : ℚ) - 1) * (2 : ℚ) ^ k < (roundHalfEven (x * (2 : ℚ) ^ k) : ℚ) := by
    exact_mod_cast hm_lo
  have hm_hiQ : (roundHalfEven (x * (2 : ℚ) ^ k) : ℚ) ≤ (⌈x⌉ : ℚ) * (2 : ℚ) ^ k := by
    exact_mod_cast hm_hi
  obtain ⟨m, hm⟩ : ∃ m : ℤ, m = roundHalfEven (x * (2 : ℚ) ^ k) := ⟨_, rfl⟩
  rw [← hm] at hm_loQ hm_hiQ
  have hv_lo : (⌈x⌉ : ℚ) - 1 < (m : ℚ) * ((2 : ℚ) ^ k)⁻¹ := by
    rw [← div_eq_mul_inv, lt_div_iff₀ hspos]
    exact hm_loQ
  have hv_hi : (m : ℚ) * ((2 : ℚ) ^ k)⁻¹ ≤ (⌈x⌉ : ℚ) := by
    rw [← div_eq_mul_inv, div_le_iff₀ hspos]
    exact hm_hiQ
  have hceil : ⌈(m : ℚ) * ((2 : ℚ) ^ k)⁻¹⌉ = ⌈x⌉ := by
    rw [Int.ceil_eq_iff]
    exact ⟨hv_lo, hv_hi⟩
  have hsmall : ¬ (2 : ℚ) ^ (1024 : ℕ) ≤ |(m : ℚ) * ((2 : ℚ) ^ k)⁻¹| := by
    have hvpos : 0 ≤ (m : ℚ) * ((2 : ℚ) ^ k)⁻¹ := by
      have : (0 : ℚ) ≤ (⌈x⌉ : ℚ) - 1 := by
        have : (1 : ℚ) ≤ (⌈x⌉ : ℚ) := by exact_mod_cast hcpos
        linarith
      linarith
    rw [abs_of_nonneg hvpos]
    have hcTQ : (⌈x⌉ : ℚ) ≤ (T : ℚ) := by exact_mod_cast hcT
    have h2 : (2 : ℚ) ^ (53 : ℕ) ≤ (2 : ℚ) ^ (1024 : ℕ) :=
      pow_le_pow_right₀ (by norm_num) (by norm_num)
    intro hcon
    linarith
  have hrd : roundDouble x = JsNumber.fin ((m : ℚ) * ((2 : ℚ) ^ k)⁻¹) := by
    unfold roundDouble
    rw [if_neg hxne]
    simp only [hxabs, he.trans hk, hpow, hdiv, ← hm]
    rw [if_neg hsmall]
  rw [hrd]
  simp only [mathCeil, hceil]

theorem jsAdd_zero (x : JsNumber) : jsAdd x (JsNumber.fin 0) = x := by
  cases x <;> simp [jsAdd]

theorem foldl_sales (ts : List Transaction) (acc : JsNumber) :
    ts.foldl
        (fun a t => jsAdd a (toNumber (if t.sold then t.price else Price.number (JsNumber.fin 0))))
        acc
      = ((ts.filter (fun t => t.sold)).map (fun t => toNumber t.price)).foldl jsAdd acc := by
  induction ts generalizing acc with
  | nil => rfl
  | cons t ts ih =>
    cases hs : t.sold
    · have h0 : toNumber (Price.number (JsNumber.fin 0)) = JsNumber.fin 0 := rfl
      simp [List.foldl_cons, List.filter_cons, hs, h0, jsAdd_zero, ih]
    · simp [List.foldl_cons, List.filter_cons, hs, ih]

theorem jsAdd_natCast (a b : ℕ) (h : a + b < 2 ^ 53) :
    jsAdd (JsNumber.fin (a : ℚ)) (JsNumber.fin (b : ℚ)) = JsNumber.fin ((a + b : ℕ) : ℚ) := by
  by_cases hb : b = 0
  · subst hb
    simp [jsAdd]
  by_cases ha : a = 0
  · subst ha
    simp [jsAdd, hb]
  have hbQ : (b : ℚ) ≠ 0 := by exact_mod_cast hb
  have haQ : (a : ℚ) ≠ 0 := by exact_mod_cast ha
  have hz : |((a + b : ℕ) : ℤ)| < 2 ^ 53 := by
    rw [abs_of_nonneg (by positivity)]
    exact_mod_cast h
  have hr := roundDouble_intCast ((a + b : ℕ) : ℤ) hz
  simp only [jsAdd, hbQ, haQ, if_false]
  have hcast : (a : ℚ) + (b : ℚ) = (((a + b : ℕ) : ℤ) : ℚ) := by push_cast; ring
  rw [hcast, hr]
  norm_cast

theorem foldl_jsAdd_natCast (ns : List ℕ) (a : ℕ) (h : a + ns.sum < 2 ^ 53) :
    (ns.map (fun (n : ℕ) => JsNumber.fin (n : ℚ))).foldl jsAdd (JsNumber.fin (a : ℚ))
      = JsNumber.fin ((a + ns.sum : ℕ) : ℚ) := by
  induction ns generalizing a with
  | nil => simp
  | cons n ns ih =>
    simp only [List.map_cons, List.foldl_cons, List.sum_cons] at h ⊢
    rw [jsAdd_natCast a n (by omega), ih (a + n) (by omega), Nat.add_assoc]

/-! ## Statistics -/

/-- C6. The statistics of any matched records: `totalSales` is the running sum, in the
addition of numbers, of the prices of exactly the sold records (for prices that are
natural numbers of total below `2 ^ 53` it is their exact sum), `totalSoldItems` is the
number of sold records, and no records give `0`, `0`, `0`. -/
theorem statistics_values (transactions : List Transaction) :
    (statistics transactions).totalSales
        = ((transactions.filter (fun t => t.sold)).map (fun t => toNumber t.price)).foldl jsAdd
            (JsNumber.fin 0)
      ∧ (∀ prices : List ℕ,
          (transactions.filter (fun t => t.sold)).map (fun t => t.price)
              = prices.map (fun (n : ℕ) => Price.number (JsNumber.fin (n : ℚ))) →
            prices.sum < 2 ^ 53 →
            (statistics transactions).totalSales = JsNumber.fin ((prices.sum : ℕ) : ℚ))
      ∧ (statistics transactions).totalSoldItems = transactions.countP (fun t => t.sold)
      ∧ statistics []
          = { totalSales := JsNumber.fin 0, totalSoldItems := 0, totalNotSoldItems := 0 } := by
  refine ⟨foldl_sales transactions (JsNumber.fin 0), ?_, ?_, ?_⟩
  · intro prices h hsum
    show totalSales transactions = JsNumber.fin ((prices.sum : ℕ) : ℚ)
    have hmap : (transactions.filter (fun t => t.sold)).map (fun t => toNumber t.price)
        = prices.map (fun (n : ℕ) => JsNumber.fin (n : ℚ)) := by
      have := congrArg (List.map toNumber) h
      simpa [List.map_map, Function.comp_def, toNumber] using this
    have h0 := foldl_jsAdd_natCast prices 0 (by omega)
    rw [totalSales, foldl_sales, hmap]
    simpa using h0
  · show totalSoldItems transactions = _
    rw [totalSoldItems, List.countP_eq_length_filter]
  · simp [statistics, totalSales, totalSoldItems, totalNotSoldItems]

/-- Witness of C6: two sold records priced 50 and 150 and one unsold record priced 950
give `totalSales = 200`. -/
theorem statistics_values_witness :
    (statistics [sample 50 "a" true, sample 950 "b" false, sample 150 "a" true]).totalSales
      = JsNumber.fin ((([50, 150] : List ℕ).sum : ℕ) : ℚ) :=
  (statistics_values [sample 50 "a" true, sample 950 "b" false, sample 150 "a" true]).2.1
    [50, 150] (by simp [sample]) (by norm_num)

/-- C9. For any matched records, `totalSoldItems + totalNotSoldItems` is the number of
records, and neither count is negative. -/
theorem statistics_invariant (transactions : List Transaction) :
    ((statistics transactions).totalSoldItems : Int) + (statistics transactions).totalNotSoldItems
        = (transactions.length : Int)
      ∧ 0 ≤ ((statistics transactions).totalSoldItems : Int)
      ∧ 0 ≤ (statistics transactions).totalNotSoldItems := by
  have h : (transactions.filter (fun t => t.sold)).length ≤ transactions.length :=
    List.length_filter_le _ _
  simp only [statistics, totalNotSoldItems, totalSoldItems]
  omega

/-! ## Category histogram -/

/-- C5. For any matched records the per-category counts of the pie chart add up to the
number of records, no category occurs in two entries, every record's category has
exactly one entry, and an entry's count is the number of records of its category. -/
theorem pieChart_partitions (transactions : List Transaction) :
    ((pieChartData transactions).map (fun e => e.count)).sum = transactions.length
      ∧ ((pieChartData transactions).map (fun e => e.category)).Nodup
      ∧ (∀ t ∈ transactions,
          ((pieChartData transactions).filter (fun e => decide (e.category = t.category))).length = 1)
      ∧ (∀ e ∈ pieChartData transactions,
          e.count = (transactions.filter (fun t => decide (t.category = e.category))).length) := by
  have hcat : (pieChartData transactions).map (fun e => e.category) = categories transactions := by
    simp [pieChartData, List.map_map, Function.comp_def]
  have hmem : ∀ t ∈ transactions, t.category ∈ categories transactions := fun t ht =>
    (mem_setOf _ _).2 (List.mem_map_of_mem _ ht)
  refine ⟨?_, ?_, ?_, ?_⟩
  · have hcount : (pieChartData transactions).map (fun e => e.count)
        = (categories transactions).map
            (fun c => (transactions.filter (fun t => decide (t.category = c))).length) := by
      simp [pieChartData, List.map_map, Function.comp_def]
    rw [hcount]
    exact sum_filter_length _ (nodup_setOf _) transactions hmem
  · rw [hcat]
    exact nodup_setOf _
  · intro t ht
    have hlen : ((pieChartData transactions).filter (fun e => decide (e.category = t.category))).length
        = ((categories transactions).filter (fun c => decide (c = t.category))).length := by
      rw [← hcat, List.filter_map, List.length_map]
      rfl
    rw [hlen]
    exact filter_eq_length_one _ (nodup_setOf _) _ (hmem t ht)
  · intro e he
    simp only [pieChartData, List.mem_map] at he
    obtain ⟨c, _, rfl⟩ := he
    rfl

/-- Witness of C5: among the categories of three records, the category of the first
record has exactly one entry. -/
theorem pieChart_partitions_witness :
    ((pieChartData sampleDocs).filter
        (fun e => decide (e.category = (sample 50 "a" true).category))).length = 1 :=
  (pieChart_partitions sampleDocs).2.2.1 (sample 50 "a" true) (List.mem_cons_self _ _)

/-! ## Price-range histogram -/

theorem inRange_fin (label : String) (lo hi : ℚ) :
    inRange { range := label, min := JsNumber.fin lo, max := JsNumber.fin hi }
      = readsWithin lo hi := by
  funext t
  cases h : toNumber t.price <;> simp [inRange, jsGe, jsLe, readsWithin, h]

theorem inRange_posInf (label : String) (lo : ℚ) :
    inRange { range := label, min := JsNumber.fin lo, max := JsNumber.posInf }
      = readsAtLeast lo := by
  funext t
  cases h : toNumber t.price <;> simp [inRange, jsGe, jsLe, readsAtLeast, h]

/-- C7 as stated fails for a record whose price is `null`: the bar chart counts it in
`0-100`, although it has no price within the bounds 0 and 100. -/
theorem barChart_null_price_counterexample :
    sampleNullPrice.price = Price.null
      ∧ (barChartData [sampleNullPrice]).map (fun e => e.count) = [1, 0, 0, 0, 0, 0, 0, 0, 0, 0]
      ∧ ([sampleNullPrice].filter (priceWithin 0 100)).length = 0 := by
  refine ⟨rfl, ?_, ?_⟩
  · norm_num [barChartData, ranges, inRange, jsGe, jsLe, sampleNullPrice, toNumber, List.filter]
  · simp [priceWithin, sampleNullPrice]

/-- C7, amended. For any matched records the bar chart has the ten labels in the fixed
order, each with the number of records whose price, read as a number (`null` reads as
`0`), lies within its inclusive bounds; the prices 50, 150 and 950 give one record each
in `0-100`, `101-200` and `901-above`. -/
theorem barChart_shape (transactions : List Transaction) :
    (barChartData transactions).length = 10
      ∧ (barChartData transactions).map (fun e => e.range)
          = ["0-100", "101-200", "201-300", "301-400", "401-500", "501-600", "601-700",
             "701-800", "801-900", "901-above"]
      ∧ (barChartData transactions).map (fun e => e.count)
          = [ (transactions.filter (readsWithin 0 100)).length,
              (transactions.filter (readsWithin 101 200)).length,
              (transactions.filter (readsWithin 201 300)).length,
              (transactions.filter (readsWithin 301 400)).length,
              (transactions.filter (readsWithin 401 500)).length,
              (transactions.filter (readsWithin 501 600)).length,
              (transactions.filter (readsWithin 601 700)).length,
              (transactions.filter (readsWithin 701 800)).length,
              (transactions.filter (readsWithin 801 900)).length,
              (transactions.filter (readsAtLeast 901)).length ]
      ∧ barChartData [sample 50 "a" true, sample 150 "b" false, sample 950 "c" true]
          = [ { range := "0-100", count := 1 }, { range := "101-200", count := 1 },
              { range := "201-300", count := 0 }, { range := "301-400", count := 0 },
              { range := "401-500", count := 0 }, { range := "501-600", count := 0 },
              { range := "601-700", count := 0 }, { range := "701-800", count := 0 },
              { range := "801-900", count := 0 }, { range := "901-above", count := 1 } ] := by
  refine ⟨by simp [barChartData, ranges], by simp [barChartData, ranges], ?_, ?_⟩
  · simp only [barChartData, ranges, List.map_cons, List.map_nil, inRange_fin, inRange_posInf]
  · norm_num [barChartData, ranges, inRange, jsGe, jsLe, sample, toNumber, List.filter]

/-- C1, evaluated at a price between two buckets: one matched record priced 100.5
is counted in none of the ten buckets, so the counts add up to 0 and not to 1. -/
theorem barChart_fractional_price_uncounted :
    [sample (201 / 2) "a" true].length = 1
      ∧ (sample (201 / 2) "a" true).price = Price.number (JsNumber.fin (201 / 2))
      ∧ ((barChartData [sample (201 / 2) "a" true]).map (fun e => e.count)).sum = 0 := by
  refine ⟨rfl, rfl, ?_⟩
  norm_num [barChartData, ranges, inRange, jsGe, jsLe, sample, toNumber, List.filter]

theorem bucket_indicator_sum (t : Transaction) (n : Nat)
    (h : t.price = Price.number (JsNumber.fin (n : ℚ))) :
    (ranges.map (fun r => if inRange r t = true then 1 else 0)).sum = 1 := by
  simp only [ranges, List.map_cons, List.map_nil, inRange, jsGe, jsLe, h, toNumber, List.sum_cons,
    List.sum_nil, Bool.and_eq_true, decide_eq_true_eq, Nat.cast_nonneg, Nat.ofNat_le_cast,
    Nat.cast_le_ofNat, true_and, and_true]
  have hcases : n ≤ 100 ∨ (101 ≤ n ∧ n ≤ 200) ∨ (201 ≤ n ∧ n ≤ 300) ∨ (301 ≤ n ∧ n ≤ 400)
      ∨ (401 ≤ n ∧ n ≤ 500) ∨ (501 ≤ n ∧ n ≤ 600) ∨ (601 ≤ n ∧ n ≤ 700)
      ∨ (701 ≤ n ∧ n ≤ 800) ∨ (801 ≤ n ∧ n ≤ 900) ∨ 901 ≤ n := by omega
  rcases hcases with hc | hc | hc | hc | hc | hc | hc | hc | hc | hc
  all_goals simp (disch := omega) only [if_pos, if_neg]
  all_goals rfl

/-- The histogram does cover every record whose price is a natural number. -/
theorem barChart_sum_natural_prices (transactions : List Transaction)
    (h : ∀ t ∈ transactions, ∃ n : Nat, t.price = Price.number (JsNumber.fin (n : ℚ))) :
    ((barChartData transactions).map (fun e => e.count)).sum = transactions.length := by
  have hmap : (barChartData transactions).map (fun e => e.count)
      = ranges.map (fun r => (transactions.filter (inRange r)).length) := by
    simp [barChartData, List.map_map, Function.comp_def]
  rw [hmap]
  clear hmap
  induction transactions with
  | nil => simp [ranges]
  | cons t ts ih =>
    have hstep : ∀ r, ((t :: ts).filter (inRange r)).length
        = (ts.filter (inRange r)).length + (if inRange r t = true then 1 else 0) := by
      intro r
      by_cases hr : inRange r t = true <;> simp [List.filter_cons, hr]
    obtain ⟨n, hn⟩ := h t (List.mem_cons_self _ _)
    simp only [hstep, List.sum_map_add]
    rw [ih (fun x hx => h x (List.mem_cons_of_mem _ hx)), bucket_indicator_sum t n hn,
      List.length_cons]


/-! ## Listing -/

theorem toNat?_natCast (n : ℕ) : (JsNumber.fin (n : ℚ)).toNat? = some n := by
  simp [JsNumber.toNat?]

theorem skip_natCast (p n : ℕ) (hp : 1 ≤ p) (hp53 : p ≤ 2 ^ 53) (hskip : (p - 1) * n < 2 ^ 53) :
    jsMul (jsSub (JsNumber.fin (p : ℚ)) (JsNumber.fin 1)) (JsNumber.fin (n : ℚ))
      = JsNumber.fin (((p - 1) * n : ℕ) : ℚ) := by
  have h1 : (p : ℚ) - 1 = (((p - 1 : ℕ) : ℤ) : ℚ) := by
    push_cast [Nat.cast_sub hp]
    ring
  have hz1 : |((p - 1 : ℕ) : ℤ)| < 2 ^ 53 := by
    rw [abs_of_nonneg (by positivity)]
    have : p - 1 < 2 ^ 53 := by omega
    exact_mod_cast this
  have h2 : (((p - 1 : ℕ) : ℤ) : ℚ) * (n : ℚ) = ((((p - 1) * n : ℕ) : ℤ) : ℚ) := by
    push_cast
    ring
  have hz2 : |(((p - 1) * n : ℕ) : ℤ)| < 2 ^ 53 := by
    rw [abs_of_nonneg (by positivity)]
    exact_mod_cast hskip
  simp only [jsSub, jsMul]
  rw [h1, roundDouble_intCast _ hz1]
  simp only [jsMul]
  rw [h2, roundDouble_intCast _ hz2]
  norm_cast

theorem handler_ok (otherErrors : String → Bool) (store : Store) (req : ReqQuery)
    (docs : List Transaction) (total p n l : ℕ)
    (hsearch : req.search.getD "" = "" ∨ regExpThrows otherErrors (req.search.getD "") = false)
    (hpage : req.page.getD (JsNumber.fin 1) = JsNumber.fin (p : ℚ)) (hp : 1 ≤ p)
    (hp53 : p ≤ 2 ^ 53)
    (hnum : (req.perPage.getD defaultPerPage).asNumber = JsNumber.fin (n : ℚ))
    (hint : (req.perPage.getD defaultPerPage).asInt = JsNumber.fin (l : ℚ))
    (hskip : (p - 1) * n < 2 ^ 53)
    (hfind : store.find (listingQuery req) = Except.ok docs)
    (hcount : store.countDocuments (listingQuery req) = Except.ok total) :
    transactionsHandler otherErrors store req
      = Outcome.json
          { transactions := skipLimit ((p - 1) * n) l docs
            totalTransactions := total
            totalPages := mathCeil (jsDiv (JsNumber.fin (total : ℚ)) (JsNumber.fin (n : ℚ))) } := by
  have hguard : ¬ (req.search.getD "" ≠ "" ∧ regExpThrows otherErrors (req.search.getD "") = true) := by
    rintro ⟨h1, h2⟩
    rcases hsearch with h | h
    · exact h1 h
    · rw [h] at h2
      exact Bool.false_ne_true h2
  simp only [transactionsHandler, hguard, if_false, hfind, hpage, hnum, hint,
    skip_natCast p n hp hp53 hskip, cursor, toNat?_natCast, hcount]

/-- C2, evaluated at the search text `(`: whatever the store does, the handler ends by
the `SyntaxError` of `new RegExp` at lines 59-65, before the `try` block, and sends
no response, neither a body nor the status 500. -/
theorem transactions_invalid_search_uncaught (otherErrors : String → Bool) (store : Store) :
    transactionsHandler otherErrors store
        { search := some "(", page := none, perPage := none, month := some "March" }
      = Outcome.uncaught :=
  rfl

/-- A failure of the `find` call, which is inside the `try` block, does give the
status 500 with the fixed text. -/
theorem transactions_store_failure (otherErrors : String → Bool) (store : Store)
    (req : ReqQuery) (e : String)
    (hsearch : req.search.getD "" = "" ∨ regExpThrows otherErrors (req.search.getD "") = false)
    (hfail : store.find (listingQuery req) = Except.error e) :
    transactionsHandler otherErrors store req
      = Outcome.status500 "Error fetching transactions" := by
  have hguard : ¬ (req.search.getD "" ≠ "" ∧ regExpThrows otherErrors (req.search.getD "") = true) := by
    rintro ⟨h1, h2⟩
    rcases hsearch with h | h
    · exact h1 h
    · rw [h] at h2
      exact Bool.false_ne_true h2
  simp only [transactionsHandler, hguard, if_false, hfail]

/-- C3 as stated fails for `perPage = 0`: with one matching record, page 1 and
`perPage=0` the handler passes the limit `0`, which the store takes as no limit, and
returns that record, one more than `perPage`. -/
theorem listing_perPage_zero_counterexample :
    ∃ body, transactionsHandler noOtherErrors (storeOf [sample 50 "a" true]) zeroPerPageReq
          = Outcome.json body
      ∧ zeroPerPageReq.perPage = some (numeral 0)
      ∧ body.transactions = [sample 50 "a" true]
      ∧ ¬ body.transactions.length ≤ 0 := by
  refine ⟨_, handler_ok noOtherErrors (storeOf [sample 50 "a" true]) zeroPerPageReq
    [sample 50 "a" true] 1 1 0 0 (Or.inl rfl) (by simp [zeroPerPageReq]) le_rfl (by norm_num)
    (by simp [zeroPerPageReq, numeral]) (by simp [zeroPerPageReq, numeral]) (by norm_num)
    rfl rfl, rfl, ?_, ?_⟩
  · simp [skipLimit]
  · simp [skipLimit]

/-- C3, amended. Take a listing query whose search text is a valid pattern, whose `page`
is a natural number `p ≥ 1`, whose `perPage` reads as the natural number `n` in
arithmetic and as `l` under `parseInt` (`n = l` for a plain decimal numeral), with `p`
and `(p-1)*n` in the range of exact integers, and whose store calls succeed. Then the
returned transactions are the matching records without the first `(p-1)*n`, cut to the
first `l` of them when `l ≥ 1` (so at most `l` are returned) and not cut at all when
`l = 0`. -/
theorem listing_page (otherErrors : String → Bool) (store : Store) (req : ReqQuery)
    (docs : List Transaction) (total p n l : ℕ)
    (hsearch : req.search.getD "" = "" ∨ regExpThrows otherErrors (req.search.getD "") = false)
    (hpage : req.page.getD (JsNumber.fin 1) = JsNumber.fin (p : ℚ)) (hp : 1 ≤ p)
    (hp53 : p ≤ 2 ^ 53)
    (hnum : (req.perPage.getD defaultPerPage).asNumber = JsNumber.fin (n : ℚ))
    (hint : (req.perPage.getD defaultPerPage).asInt = JsNumber.fin (l : ℚ))
    (hskip : (p - 1) * n < 2 ^ 53)
    (hfind : store.find (listingQuery req) = Except.ok docs)
    (hcount : store.countDocuments (listingQuery req) = Except.ok total) :
    ∃ body, transactionsHandler otherErrors store req = Outcome.json body
      ∧ (1 ≤ l →
          body.transactions = (docs.drop ((p - 1) * n)).take l ∧ body.transactions.length ≤ l)
      ∧ (l = 0 → body.transactions = docs.drop ((p - 1) * n)) := by
  refine ⟨_, handler_ok otherErrors store req docs total p n l hsearch hpage hp hp53 hnum hint
    hskip hfind hcount, ?_, ?_⟩
  · intro hl
    have hne : l ≠ 0 := by omega
    simp only [skipLimit, hne, if_false, true_and, List.length_take]
    exact Nat.min_le_left _ _
  · intro hl
    simp [skipLimit, hl]

/-- Witness of C3 amended: three matching records, page 2 and `perPage=2` return the
third record alone. -/
theorem listing_page_witness :
    ∃ body, transactionsHandler noOtherErrors (storeOf sampleDocs) sampleReq = Outcome.json body
      ∧ (1 ≤ 2 →
          body.transactions = (sampleDocs.drop ((2 - 1) * 2)).take 2
            ∧ body.transactions.length ≤ 2)
      ∧ (2 = 0 → body.transactions = sampleDocs.drop ((2 - 1) * 2)) :=
  listing_page noOtherErrors (storeOf sampleDocs) sampleReq sampleDocs 3 2 2 2
    (Or.inl rfl) (by simp [sampleReq]) (by norm_num) (by norm_num)
    (by simp [sampleReq, numeral]) (by simp [sampleReq, numeral]) (by norm_num) rfl rfl

/-- C4 as stated fails for `perPage = 0`: with one matching record the handler's
`totalPages` is `Infinity`, which is no integer at all. -/
theorem listing_totalPages_zero_counterexample :
    ∃ body, transactionsHandler noOtherErrors (storeOf [sample 50 "a" true]) zeroPerPageReq
          = Outcome.json body
      ∧ body.totalTransactions = 1
      ∧ body.totalPages = JsNumber.posInf
      ∧ ¬ ∃ c : ℤ, body.totalPages = JsNumber.fin (c : ℚ) ∧ (1 : ℤ) ≤ c * 0 := by
  refine ⟨_, handler_ok noOtherErrors (storeOf [sample 50 "a" true]) zeroPerPageReq
    [sample 50 "a" true] 1 1 0 0 (Or.inl rfl) (by simp [zeroPerPageReq]) le_rfl (by norm_num)
    (by simp [zeroPerPageReq, numeral]) (by simp [zeroPerPageReq, numeral]) (by norm_num)
    rfl rfl, rfl, ?_, ?_⟩
  · simp [jsDiv, mathCeil, signedInf]
  · rintro ⟨c, _, hc⟩
    omega


theorem ceil_div_least (T n : ℕ) (hn : 1 ≤ n) :
    (T : ℤ) ≤ ⌈(T : ℚ) / (n : ℚ)⌉ * (n : ℤ)
      ∧ (∀ m : ℤ, (T : ℤ) ≤ m * (n : ℤ) → ⌈(T : ℚ) / (n : ℚ)⌉ ≤ m)
      ∧ (∀ i : ℕ, i < T → ((i / n + 1 : ℕ) : ℤ) ≤ ⌈(T : ℚ) / (n : ℚ)⌉) := by
  have hposQ : (0 : ℚ) < (n : ℚ) := by exact_mod_cast hn
  have hposZ : (0 : ℤ) < (n : ℤ) := by exact_mod_cast hn
  have hle : (T : ℤ) ≤ ⌈(T : ℚ) / (n : ℚ)⌉ * (n : ℤ) := by
    have h1 : (T : ℚ) / (n : ℚ) ≤ (⌈(T : ℚ) / (n : ℚ)⌉ : ℚ) := Int.le_ceil _
    have h2 : (T : ℚ) ≤ (⌈(T : ℚ) / (n : ℚ)⌉ : ℚ) * (n : ℚ) := (div_le_iff₀ hposQ).1 h1
    exact_mod_cast h2
  refine ⟨hle, ?_, ?_⟩
  · intro m hm
    rw [Int.ceil_le, div_le_iff₀ hposQ]
    exact_mod_cast hm
  · intro i hi
    obtain ⟨q, hq⟩ : ∃ q : ℕ, q = i / n := ⟨_, rfl⟩
    rw [← hq]
    have h4 : q * n ≤ i := hq ▸ Nat.div_mul_le_self i n
    have h5 : (q : ℤ) * (n : ℤ) ≤ (i : ℤ) := by exact_mod_cast h4
    have h6 : (i : ℤ) < (T : ℤ) := by exact_mod_cast hi
    have h3 : (q : ℤ) * (n : ℤ) < ⌈(T : ℚ) / (n : ℚ)⌉ * (n : ℤ) := by omega
    have h7 : (q : ℤ) < ⌈(T : ℚ) / (n : ℚ)⌉ := lt_of_mul_lt_mul_right h3 hposZ.le
    push_cast
    omega

theorem get_mem_page (docs : List Transaction) (n i : ℕ) (hn : 1 ≤ n) (hi : i < docs.length) :
    docs.get ⟨i, hi⟩ ∈ skipLimit ((i / n + 1 - 1) * n) n docs := by
  have hne : n ≠ 0 := by omega
  have hs : (i / n + 1 - 1) * n ≤ i := by
    rw [Nat.add_sub_cancel]
    exact Nat.div_mul_le_self i n
  have hlt : i < (i / n + 1 - 1) * n + n := by
    rw [Nat.add_sub_cancel]
    have := Nat.lt_div_mul_add (a := i) hn
    omega
  simp only [skipLimit, hne, if_false]
  rw [List.mem_iff_getElem]
  refine ⟨i - (i / n + 1 - 1) * n, ?_, ?_⟩
  · simp only [List.length_take, List.length_drop]
    omega
  · simp only [List.getElem_take, List.getElem_drop, List.get_eq_getElem]
    congr 1
    omega

/-- C4, amended. Take a listing query whose search text is a valid pattern, whose
`perPage` is a plain decimal numeral `n` with `1 ≤ n < 2 ^ 53`, and whose store calls
succeed with `T < 2 ^ 53` matching records. Then `totalPages` of every JSON answer is
the integer `c = ceil(T / n)`, the least integer with `c * n ≥ T`, and every matching
record is among the transactions returned for some page `1..c`. -/
theorem listing_totalPages (otherErrors : String → Bool) (store : Store) (req : ReqQuery)
    (docs : List Transaction) (n : ℕ)
    (hsearch : req.search.getD "" = "" ∨ regExpThrows otherErrors (req.search.getD "") = false)
    (hper : req.perPage.getD defaultPerPage = numeral n)
    (hn : 1 ≤ n) (hn53 : n < 2 ^ 53)
    (hfind : store.find (listingQuery req) = Except.ok docs)
    (hcount : store.countDocuments (listingQuery req) = Except.ok docs.length)
    (hT : docs.length < 2 ^ 53) :
    ∃ c : ℤ,
      (docs.length : ℤ) ≤ c * (n : ℤ)
      ∧ (∀ m : ℤ, (docs.length : ℤ) ≤ m * (n : ℤ) → c ≤ m)
      ∧ (∀ body, transactionsHandler otherErrors store req = Outcome.json body →
          body.totalTransactions = docs.length ∧ body.totalPages = JsNumber.fin (c : ℚ))
      ∧ (∀ (i : ℕ) (hi : i < docs.length), ∃ p : ℕ, 1 ≤ p ∧ (p : ℤ) ≤ c
          ∧ ∃ body, transactionsHandler otherErrors store
                { req with page := some (JsNumber.fin (p : ℚ)) } = Outcome.json body
              ∧ body.totalPages = JsNumber.fin (c : ℚ)
              ∧ docs.get ⟨i, hi⟩ ∈ body.transactions) := by
  obtain ⟨hle, hmin, hpage⟩ := ceil_div_least docs.length n hn
  have hnum : (req.perPage.getD defaultPerPage).asNumber = JsNumber.fin (n : ℚ) := by
    rw [hper]; rfl
  have hint : (req.perPage.getD defaultPerPage).asInt = JsNumber.fin (n : ℚ) := by
    rw [hper]; rfl
  have hceil := mathCeil_jsDiv_nat docs.length n hn hn53 hT
  have hguard : ¬ (req.search.getD "" ≠ "" ∧ regExpThrows otherErrors (req.search.getD "") = true) := by
    rintro ⟨h1, h2⟩
    rcases hsearch with h | h
    · exact h1 h
    · rw [h] at h2
      exact Bool.false_ne_true h2
  refine ⟨⌈(docs.length : ℚ) / (n : ℚ)⌉, hle, hmin, ?_, ?_⟩
  · intro body hbody
    simp only [transactionsHandler, hguard, if_false, hfind, hcount, hnum, hceil] at hbody
    split at hbody
    · exact absurd hbody (by simp)
    · injection hbody with hb
      rw [← hb]
      exact ⟨rfl, rfl⟩
  · intro i hi
    have hp1 : 1 ≤ i / n + 1 := Nat.le_add_left 1 (i / n)
    have hdiv : i / n ≤ i := Nat.div_le_self i n
    have hmul : (i / n + 1 - 1) * n ≤ i := by
      rw [Nat.add_sub_cancel]
      exact Nat.div_mul_le_self i n
    refine ⟨i / n + 1, hp1, hpage i hi, _,
      handler_ok otherErrors store { req with page := some (JsNumber.fin ((i / n + 1 : ℕ) : ℚ)) }
        docs docs.length (i / n + 1) n n hsearch rfl hp1
        (Nat.succ_le_of_lt (lt_of_le_of_lt hdiv (lt_trans hi hT))) hnum hint
        (lt_of_le_of_lt hmul (lt_trans hi hT)) hfind hcount, ?_, ?_⟩
    · exact hceil
    · exact get_mem_page docs n i hn hi

/-- Witness of C4 amended: three matching records and `perPage=2`. -/
theorem listing_totalPages_witness :
    ∃ c : ℤ,
      (sampleDocs.length : ℤ) ≤ c * ((2 : ℕ) : ℤ)
      ∧ (∀ m : ℤ, (sampleDocs.length : ℤ) ≤ m * ((2 : ℕ) : ℤ) → c ≤ m)
      ∧ (∀ body, transactionsHandler noOtherErrors (storeOf sampleDocs) sampleReq
            = Outcome.json body →
          body.totalTransactions = sampleDocs.length ∧ body.totalPages = JsNumber.fin (c : ℚ))
      ∧ (∀ (i : ℕ) (hi : i < sampleDocs.length), ∃ p : ℕ, 1 ≤ p ∧ (p : ℤ) ≤ c
          ∧ ∃ body, transactionsHandler noOtherErrors (storeOf sampleDocs)
                { sampleReq with page := some (JsNumber.fin (p : ℚ)) } = Outcome.json body
              ∧ body.totalPages = JsNumber.fin (c : ℚ)
              ∧ sampleDocs.get ⟨i, hi⟩ ∈ body.transactions) :=
  listing_totalPages noOtherErrors (storeOf sampleDocs) sampleReq sampleDocs 2
    (Or.inl rfl) rfl (by norm_num) (by norm_num) rfl rfl (by simp [sampleDocs])


/-! ## Month pattern -/

/-- C8. Each of the twelve English month names gives the pattern `-MM-` with `MM` the
zero-padded number of the month, and for every `month` parameter the four handlers
build the same pattern. -/
theorem month_code :
    englishMonths.map (fun p => transactionsMonthRegex (some p.1))
        = [ "-01-".toList, "-02-".toList, "-03-".toList, "-04-".toList, "-05-".toList,
            "-06-".toList, "-07-".toList, "-08-".toList, "-09-".toList, "-10-".toList,
            "-11-".toList, "-12-".toList ]
      ∧ englishMonths.map (fun p => p.2) = [1, 2, 3, 4, 5, 6, 7, 8, 9, 10, 11, 12]
      ∧ (∀ month : Option String,
          statisticsMonthRegex month = transactionsMonthRegex month
            ∧ barChartMonthRegex month = transactionsMonthRegex month
            ∧ pieChartMonthRegex month = transactionsMonthRegex month) :=
  ⟨by decide, by decide, fun _ => ⟨rfl, rfl, rfl⟩⟩

theorem digit_ne_dash (n : Nat) : digit n ≠ '-' := by
  have h : n % 10 < 10 := Nat.mod_lt _ (by decide)
  unfold digit
  generalize n % 10 = k at h
  interval_cases k <;> decide

theorem digit_inj (a b : Nat) (h : digit a = digit b) : a % 10 = b % 10 := by
  have ha : a % 10 < 10 := Nat.mod_lt _ (by decide)
  have hb : b % 10 < 10 := Nat.mod_lt _ (by decide)
  unfold digit at h
  generalize a % 10 = x at h ha ⊢
  generalize b % 10 = y at h hb ⊢
  interval_cases x <;> interval_cases y <;> first | rfl | exact absurd h (by decide)

theorem regexTest_twoDigits (d : SaleDate) (mm : Nat) (hm : d.month ≤ 12) (hmm : mm ≤ 12) :
    regexTest (['-'] ++ twoDigits mm ++ ['-']) (toISOString d) = true ↔ d.month = mm := by
  have hd := digit_ne_dash
  have hd2 : ∀ n, '-' ≠ digit n := fun n => (hd n).symm
  simp [regexTest, toISOString, twoDigits, List.isPrefixOf, hd, hd2]
  constructor
  · rintro ⟨h1, h2⟩
    have e1 := digit_inj _ _ h1
    have e2 := digit_inj _ _ h2
    omega
  · rintro rfl
    exact ⟨rfl, rfl⟩

/-- On the text form `YYYY-MM-DDTHH:mm:ss.sssZ` the rule of the month filter is right:
for every such text and every month name, the pattern built by the month filter occurs
in the text exactly when the month field of the date is the number of that month,
whatever the year, day and time of day are. -/
theorem month_pattern_on_text (d : SaleDate) (hd : d.WellFormed) :
    (∀ p ∈ englishMonths,
        (regexTest (statisticsMonthRegex (some p.1)) (toISOString d) = true ↔ d.month = p.2))
      ∧ (∀ mm : Nat, 1 ≤ mm → mm ≤ 12 →
        (regexTest (['-'] ++ twoDigits mm ++ ['-']) (toISOString d) = true ↔ d.month = mm)) := by
  have hm : d.month ≤ 12 := hd.2.2.1
  refine ⟨?_, fun mm _ hmm => regexTest_twoDigits d mm hm hmm⟩
  intro p hp
  have hpat : statisticsMonthRegex (some p.1) = ['-'] ++ twoDigits p.2 ++ ['-'] ∧ p.2 ≤ 12 := by
    revert p
    decide
  rw [hpat.1]
  exact regexTest_twoDigits d p.2 hm hpat.2

/-- C10, evaluated at the month `March`: the filter of line 88 puts the pattern `-03-` on
the path `dateOfSale`, and the schema (line 33) declares that path as a `Date`, not as a
text, so the filter is a text pattern set against a value that is no text. -/
theorem month_filter_on_date_path :
    (statisticsFilter (some "March")).path = "dateOfSale"
      ∧ (statisticsFilter (some "March")).regex = "-03-".toList
      ∧ transactionSchema.lookup (statisticsFilter (some "March")).path = some SchemaType.date
      ∧ transactionSchema.lookup (statisticsFilter (some "March")).path
          ≠ some SchemaType.string :=
  ⟨rfl, by decide, by decide, by decide⟩

end Server
